import Mathlib

/-!
Shallow embedding of `DamageLogFileReader` (apps/damage-log-viewer, file
`damagelog/DamageLogFileReader.hpp`), a polling log tailer built on QThread.

The tailer repeatedly opens the watched file, determines its size, seeks to
the last read offset (or to 0 on first pass / shrink), streams the remaining
bytes into an external parser (`nclog::DamageLogParser`), and emits Qt
signals.  We model:

* file content per pass as a snapshot `List Byte` (`none` = open failure);
* the Qt signals as an `Event` list in emission order;
* the parser collaborator as a parameter: a byte-driven stateful step
  function, since `parseStream` consumes the stream byte-wise and fires the
  `onNewEntryFunc` callback per parsed entry;
* the run-loop local `std::streampos offset` (initially `-1`) and the
  members `_fileSize`, `_stop`, `_paused`, `_logFilePath` as explicit state;
* the narrowing in `emit fileEnd(offset)`: the signal parameter is a 32-bit
  `int` while `offset` is 64-bit, modelled by `toInt32`.
-/

namespace NeocronLog

/-- A byte of the watched file (value of one `char` read from the stream). -/
abbrev Byte := Nat

/-- The Qt signals of `DamageLogFileReader`, in the order they are declared
in the source.  `fileEnd` carries an `int` (32-bit) payload, hence the
already-narrowed value. -/
inductive Event (α : Type) where
  | errorOccurred (msg : String)
  | logFilePathChanged (path : String)
  | pausedChanged (paused : Bool)
  | fileSizeChanged (size : Int)
  | newLog (entry : α)
  | fileEnd (offset : Int)
  deriving DecidableEq, Repr

/-- C++ conversion of a 64-bit non-negative stream position to a signed
32-bit `int` (two's complement narrowing), as performed implicitly by
`emit fileEnd(offset)` where the signal parameter type is `int`. -/
def toInt32 (n : Int) : Int :=
  if n % 2 ^ 32 < 2 ^ 31 then n % 2 ^ 32 else n % 2 ^ 32 - 2 ^ 32

/-- Modelled from the spec: `nclog::DamageLogParser::parseStream` is not under
`src/`; per the spec's stream-parser contract it consumes raw bytes from the
stream one at a time, updating whatever internal state it keeps (to handle an
entry split across passes) and yielding zero or more structured entries via
the registered per-entry callback.  The parser is a parameter: `step` maps a
parser state and one byte to the next state and the entries completed by that
byte. -/
def parseChunk {σ α : Type} (step : σ → Byte → σ × List α) :
    σ → List Byte → σ × List α
  | s, [] => (s, [])
  | s, b :: bs =>
    ((parseChunk step (step s b).1 bs).1,
      (step s b).2 ++ (parseChunk step (step s b).1 bs).2)

/-- State visible to one execution of `run()`: the `_stop` flag, the
`_logFilePath` and `_fileSize` members, the loop-local
`std::streampos offset` (initialised to `-1`), and the parser's internal
state (the parser object lives across passes). -/
structure LoopState (σ : Type) where
  stop : Bool
  logFilePath : String
  fileSize : Int
  offset : Int
  parserState : σ
  deriving DecidableEq, Repr

/-- `setFileSize(qint64)`: stores the new size and emits `fileSizeChanged`
only when it differs from the stored `_fileSize`. -/
def setFileSize {σ α : Type} (st : LoopState σ) (size : Int) :
    LoopState σ × List (Event α) :=
  if st.fileSize = size then (st, [])
  else ({ st with fileSize := size }, [Event.fileSizeChanged size])

/-- The seek target of a pass: `if (offset < 0 || offset > fileSize)
in.seekg(0, beg) else in.seekg(offset)`. -/
def startOffset (offset size : Int) : Int :=
  if offset < 0 ∨ offset > size then 0 else offset

/-- The bytes `parseStream` consumes in one pass: from the seek position to
the end of the snapshot `c` (the stream is read to EOF; the snapshot's length
is the size just recorded). -/
def readChunk {σ : Type} (st : LoopState σ) (c : List Byte) : List Byte :=
  c.drop (startOffset st.offset (c.length : Int)).toNat

/-- One pass of the `run()` loop body up to (and including)
`emit fileEnd(offset)`.  `file = none` models an open failure: the code sets
`_stop = true`, emits `errorOccurred` with the path, and breaks (the returned
`Bool` is the `break`).  On success with snapshot `c`: record the size via
`setFileSize`, compute the seek position, set `offset = fileSize` before the
parse, stream the remaining bytes into the parser (one `newLog` per entry),
and emit `fileEnd` with the offset narrowed to `int`. -/
def runPass {σ α : Type} (step : σ → Byte → σ × List α) (st : LoopState σ)
    (file : Option (List Byte)) : LoopState σ × List (Event α) × Bool :=
  match file with
  | none =>
    ({ st with stop := true },
      [Event.errorOccurred ("Can\x27t open file: " ++ st.logFilePath)], true)
  | some c =>
    ({ (setFileSize (α := α) st (c.length : Int)).1 with
        offset := (c.length : Int),
        parserState := (parseChunk step st.parserState (readChunk st c)).1 },
      (setFileSize (α := α) st (c.length : Int)).2 ++
        (parseChunk step st.parserState (readChunk st c)).2.map Event.newLog ++
        [Event.fileEnd (toInt32 (c.length : Int))],
      false)

/-- Observable schedule of the loop: a `pass` tick is one iteration reaching
the loop body with the given file snapshot; a `pauseWait` tick is one bounded
timeout of `_pauseCondition.wait` spent inside the inner
`while (_paused && !_stop)` loop, during which no I/O happens and no events
are emitted. -/
inductive Tick where
  | pauseWait
  | pass (file : Option (List Byte))

/-- The `while (!_stop)` loop of `run()` over a schedule of ticks, returning
the final state and all emitted events in order.  The stop flag is checked
before every tick (the loop condition, and the pause-wait condition
re-checks `_stop` after each timeout); a pass that breaks (open failure)
ends the loop. -/
def runTicks {σ α : Type} (step : σ → Byte → σ × List α) :
    LoopState σ → List Tick → LoopState σ × List (Event α)
  | st, [] => (st, [])
  | st, Tick.pauseWait :: ts =>
    if st.stop then (st, []) else runTicks step st ts
  | st, Tick.pass file :: ts =>
    if st.stop then (st, [])
    else if (runPass step st file).2.2 then
      ((runPass step st file).1, (runPass step st file).2.1)
    else
      ((runTicks step (runPass step st file).1 ts).1,
        (runPass step st file).2.1 ++ (runTicks step (runPass step st file).1 ts).2)

/-- The state `run()` starts from: `_stop` false, `_fileSize` 0 (in-class
initialiser), loop-local `offset = -1`, fresh parser state. -/
def initialLoopState {σ : Type} (path : String) (s : σ) : LoopState σ :=
  { stop := false, logFilePath := path, fileSize := 0, offset := -1, parserState := s }

/-- The payload of a `newLog` event, if any. -/
def entryOf {α : Type} : Event α → Option α
  | Event.newLog e => some e
  | Event.errorOccurred _ => none
  | Event.logFilePathChanged _ => none
  | Event.pausedChanged _ => none
  | Event.fileSizeChanged _ => none
  | Event.fileEnd _ => none

/-- The entries delivered via `newLog` events, in emission order. -/
def newEntries {α : Type} (evs : List (Event α)) : List α :=
  evs.filterMap entryOf

/-- The successive snapshots of an append-only file: starting from content
`c`, after each delta in the list the snapshot is everything written so
far. -/
def snapshots (c : List Byte) : List (List Byte) → List (List Byte)
  | [] => []
  | d :: ds => (c ++ d) :: snapshots (c ++ d) ds

/-- Control-facing state of the reader object: `_logFilePath`, whether the
QThread is running, the `_stop` flag, `_paused`, `_fileSize`. -/
structure ControlState where
  logFilePath : String
  running : Bool
  stopFlag : Bool
  paused : Bool
  fileSize : Int
  deriving DecidableEq, Repr

/-- `stop()`: sets `_stop`, waits for the thread if it is running (after
which it is no longer running), then clears `_stop` so the reader can be
restarted. -/
def stop (st : ControlState) : ControlState :=
  { st with running := false, stopFlag := false }

/-- `setLogFilePath(path)`: same path means early return under the lock (no
state change, no events).  Otherwise `stop()` the running loop, store the new
path, and emit `logFilePathChanged`.  Nothing here starts the thread. -/
def setLogFilePath (α : Type) (st : ControlState) (path : String) :
    ControlState × List (Event α) :=
  if path = st.logFilePath then (st, [])
  else ({ stop st with logFilePath := path }, [Event.logFilePathChanged path])

/-- `setPause(bool)`: same value means early return (no events); otherwise
flip `_paused` (waking the loop when unpausing) and emit `pausedChanged`. -/
def setPause (α : Type) (st : ControlState) (pause : Bool) :
    ControlState × List (Event α) :=
  if pause = st.paused then (st, [])
  else ({ st with paused := pause }, [Event.pausedChanged pause])

/-- `isPaused()`. -/
def isPaused (st : ControlState) : Bool :=
  st.paused

/-- The in-class initialiser of the `_paused` member (`bool _paused =
false;`), overridden by the constructor's init list. -/
def pausedMemberInit : Bool := false

/-- The constructor `DamageLogFileReader(QObject*)`: init list sets
`_stop(false)` and `_paused(true)`; `_fileSize` keeps its in-class
initialiser 0, the path is empty, and the thread is not started. -/
def mkDamageLogFileReader : ControlState :=
  { logFilePath := "", running := false, stopFlag := false, paused := true, fileSize := 0 }

/-- Observable actions of the tail of one loop iteration (after
`emit fileEnd`): each bounded pause-wait timeout, and the final
`msleep(1000)`. -/
inductive TailAction where
  | pauseTimeout
  | sleep
  deriving DecidableEq, Repr

/-- The inner `while (_paused && !_stop)` wait loop: `obs` is the sequence of
`(paused, stop)` values observed at successive condition checks (they can be
changed concurrently by `setPause`/`stop`); each iteration spends one bounded
timeout in `_pauseCondition.wait`. -/
def pauseWaitActions : List (Bool × Bool) → List TailAction
  | [] => []
  | (p, s) :: rest =>
    if p && !s then TailAction.pauseTimeout :: pauseWaitActions rest else []

/-- The tail of one loop iteration: the pause-wait loop followed by
`QThread::currentThread()->msleep(1000)`.  The `msleep` call is
unconditional — it is performed on every iteration that reaches it, whatever
the value of `_stop`. -/
def iterTail (obs : List (Bool × Bool)) : List TailAction :=
  pauseWaitActions obs ++ [TailAction.sleep]

/-! ### Helper lemmas -/

theorem parseChunk_append {σ α : Type} (step : σ → Byte → σ × List α)
    (s : σ) (xs ys : List Byte) :
    parseChunk step s (xs ++ ys) =
      ((parseChunk step (parseChunk step s xs).1 ys).1,
        (parseChunk step s xs).2 ++ (parseChunk step (parseChunk step s xs).1 ys).2) := by
  induction xs generalizing s with
  | nil => simp [parseChunk]
  | cons b bs ih => simp [parseChunk, ih]

theorem newEntries_append {α : Type} (a b : List (Event α)) :
    newEntries (a ++ b) = newEntries a ++ newEntries b := by
  simp [newEntries]

theorem newEntries_map_newLog {α : Type} (l : List α) :
    newEntries (l.map Event.newLog) = l := by
  induction l with
  | nil => simp [newEntries]
  | cons e es ih => simpa [newEntries, entryOf] using ih

theorem newEntries_fileSizeChanged_if {α : Type} (c : Prop) [Decidable c] (n : Int) :
    newEntries (α := α) (if c then [] else [Event.fileSizeChanged n]) = [] := by
  split <;> simp [newEntries, entryOf]

theorem runPass_some {σ α : Type} (step : σ → Byte → σ × List α)
    (st : LoopState σ) (c : List Byte) :
    runPass step st (some c) =
      (⟨st.stop, st.logFilePath, (c.length : Int), (c.length : Int),
          (parseChunk step st.parserState (readChunk st c)).1⟩,
        (if st.fileSize = (c.length : Int) then []
          else [Event.fileSizeChanged (c.length : Int)]) ++
          (parseChunk step st.parserState (readChunk st c)).2.map Event.newLog ++
          [Event.fileEnd (toInt32 (c.length : Int))],
        false) := by
  cases st with
  | mk stp path fs off ps =>
    simp only [runPass, setFileSize]
    split
    · rename_i h
      simp_all
    · rfl

theorem startOffset_eq_self (o size : Int) (h0 : 0 ≤ o) (h1 : o ≤ size) :
    startOffset o size = o := by
  simp only [startOffset]
  rw [if_neg]
  push_neg
  exact ⟨h0, h1⟩

theorem readChunk_append_self {σ : Type} (st : LoopState σ) (c d : List Byte)
    (h : st.offset = (c.length : Int)) :
    readChunk st (c ++ d) = d := by
  have hs : startOffset st.offset ((c ++ d).length : Int) = (c.length : Int) := by
    rw [h]
    apply startOffset_eq_self
    · exact Int.natCast_nonneg _
    · simp [List.length_append]
  simp only [readChunk, hs, Int.toNat_natCast, List.drop_left]

theorem readChunk_neg {σ : Type} (st : LoopState σ) (c : List Byte)
    (h : st.offset < 0) :
    readChunk st c = c := by
  simp [readChunk, startOffset, if_pos (Or.inl h)]

theorem runTicks_pauseWaits {σ α : Type} (step : σ → Byte → σ × List α)
    (st : LoopState σ) (n : Nat) (ts : List Tick) (h : st.stop = false) :
    runTicks step st (List.replicate n Tick.pauseWait ++ ts) = runTicks step st ts := by
  induction n with
  | zero => simp
  | succ m ih => simpa [List.replicate_succ, runTicks, h] using ih

theorem newEntries_fileEnd {α : Type} (n : Int) :
    newEntries (α := α) [Event.fileEnd n] = [] := by
  simp [newEntries, entryOf]

theorem runTicks_snapshots_newEntries {σ α : Type} (step : σ → Byte → σ × List α)
    (ds : List (List Byte)) :
    ∀ (c : List Byte) (s : σ) (pathv : String) (sz o : Int),
      ((o < 0 ∧ c = []) ∨ o = (c.length : Int)) →
      newEntries (runTicks step (⟨false, pathv, sz, o, s⟩ : LoopState σ)
          ((snapshots c ds).map fun f => Tick.pass (some f))).2
        = (parseChunk step s ds.flatten).2 := by
  induction ds with
  | nil =>
    intro c s pathv sz o _
    simp [snapshots, runTicks, parseChunk, newEntries]
  | cons d ds ih =>
    intro c s pathv sz o ho
    have hchunk : readChunk (⟨false, pathv, sz, o, s⟩ : LoopState σ) (c ++ d) = d := by
      rcases ho with ⟨hneg, hc⟩ | ho
      · subst hc
        simpa using readChunk_neg (⟨false, pathv, sz, o, s⟩ : LoopState σ) d hneg
      · exact readChunk_append_self _ c d ho
    have hpass := runPass_some step (⟨false, pathv, sz, o, s⟩ : LoopState σ) (c ++ d)
    rw [hchunk] at hpass
    have hih := ih (c ++ d) (parseChunk step s d).1 pathv ((c ++ d).length : Int)
      ((c ++ d).length : Int) (Or.inr rfl)
    simp [snapshots, runTicks, hpass, hih, parseChunk_append, newEntries_append,
      newEntries_map_newLog, newEntries_fileSizeChanged_if, newEntries_fileEnd]
    simp [List.length_append] at hih
    simpa [newEntries, entryOf] using hih

/-- C1: for every append-only sequence of writes to the watched file, the
entries delivered via `newLog` events across all passes, concatenated in
emission order, equal what the parser produces when fed the full file
content from offset 0 in a single call — for any parser collaborator
(`step`, from any initial parser state `s`). -/
theorem C1_tailing_equivalent_to_oneshot_parse {σ α : Type}
    (step : σ → Byte → σ × List α) (s : σ) (pathv : String)
    (ds : List (List Byte)) :
    newEntries (runTicks step (initialLoopState pathv s)
        ((snapshots [] ds).map fun f => Tick.pass (some f))).2
      = (parseChunk step s ds.flatten).2 := by
  exact runTicks_snapshots_newEntries step ds [] s pathv 0 (-1)
    (Or.inl ⟨by norm_num, rfl⟩)

/-- C2: after every successful read pass the read offset equals the recorded
file size, hence the invariant 0 ≤ readOffset ≤ fileSize holds; and whenever
a pass observes a size smaller than the carried offset, the seek position of
that pass is 0 (the read restarts at the beginning of the file). -/
theorem C2_offset_invariant {σ α : Type} (step : σ → Byte → σ × List α)
    (st : LoopState σ) (c : List Byte) :
    (runPass step st (some c)).1.offset = (runPass step st (some c)).1.fileSize ∧
    0 ≤ (runPass step st (some c)).1.offset ∧
    (runPass step st (some c)).1.offset ≤ (runPass step st (some c)).1.fileSize ∧
    ((c.length : Int) < st.offset → startOffset st.offset (c.length : Int) = 0) := by
  rw [runPass_some]
  refine ⟨rfl, Int.natCast_nonneg _, le_refl _, fun h => ?_⟩
  simp only [startOffset]
  rw [if_pos (Or.inr h)]

/-- Witness for C2: a pass over a 2-byte file with carried offset 5 (the
file shrank). -/
theorem C2_offset_invariant_witness :
    (runPass (fun (s : Nat) (b : Byte) => (s, [b]))
        (⟨false, "log", 5, 5, 0⟩ : LoopState Nat) (some [7, 8])).1.offset =
      (runPass (fun (s : Nat) (b : Byte) => (s, [b]))
        (⟨false, "log", 5, 5, 0⟩ : LoopState Nat) (some [7, 8])).1.fileSize ∧
    startOffset 5 (([7, 8] : List Byte).length : Int) = 0 :=
  ⟨(C2_offset_invariant (fun (s : Nat) (b : Byte) => (s, [b]))
      (⟨false, "log", 5, 5, 0⟩ : LoopState Nat) [7, 8]).1,
    (C2_offset_invariant (fun (s : Nat) (b : Byte) => (s, [b]))
      (⟨false, "log", 5, 5, 0⟩ : LoopState Nat) [7, 8]).2.2.2 (by norm_num)⟩

/-- C3: the seek position of a pass is 0 exactly when the carried offset is
uninitialised (negative) or exceeds the current size, and the carried offset
otherwise; the offset is set to the recorded size (independently of the
parse), the parser is fed exactly the bytes from the seek position to the
end of the snapshot, and bytes appended after the size was recorded are
delivered by the following pass. -/
theorem C3_start_offset_and_deferral {σ α : Type} (step : σ → Byte → σ × List α)
    (st : LoopState σ) (c d : List Byte) :
    ((st.offset < 0 ∨ st.offset > (c.length : Int)) →
        startOffset st.offset (c.length : Int) = 0) ∧
    (0 ≤ st.offset → st.offset ≤ (c.length : Int) →
        startOffset st.offset (c.length : Int) = st.offset) ∧
    newEntries (runPass step st (some c)).2.1 =
      (parseChunk step st.parserState (readChunk st c)).2 ∧
    (runPass step st (some c)).1.offset = (c.length : Int) ∧
    newEntries (runPass step ((runPass step st (some c)).1) (some (c ++ d))).2.1 =
      (parseChunk step ((runPass step st (some c)).1.parserState) d).2 := by
  refine ⟨fun h => ?_, fun h0 h1 => startOffset_eq_self _ _ h0 h1, ?_, ?_, ?_⟩
  · simp only [startOffset]
    rw [if_pos h]
  · rw [runPass_some]
    simp [newEntries_append, newEntries_map_newLog,
      newEntries_fileSizeChanged_if, newEntries_fileEnd]
  · rw [runPass_some]
  · rw [runPass_some step st c]
    have hrc := readChunk_append_self
      (⟨st.stop, st.logFilePath, (c.length : Int), (c.length : Int),
        (parseChunk step st.parserState (readChunk st c)).1⟩ : LoopState σ) c d rfl
    rw [runPass_some, hrc]
    simp [newEntries_append, newEntries_map_newLog,
      newEntries_fileSizeChanged_if, newEntries_fileEnd]

/-- Witness for C3: a first pass (offset -1) over a 2-byte file, then a pass
after one more byte was appended; and the seek rule at offsets -1 and 1. -/
theorem C3_start_offset_and_deferral_witness :
    startOffset (-1) (([8, 9] : List Byte).length : Int) = 0 ∧
    startOffset 1 (([8, 9] : List Byte).length : Int) = 1 ∧
    newEntries (runPass (fun (s : Nat) (b : Byte) => (s, [b]))
        (⟨false, "log", 0, -1, 0⟩ : LoopState Nat) (some [8, 9])).2.1 =
      (parseChunk (fun (s : Nat) (b : Byte) => (s, [b])) 0
        (readChunk (⟨false, "log", 0, -1, 0⟩ : LoopState Nat) [8, 9])).2 ∧
    (runPass (fun (s : Nat) (b : Byte) => (s, [b]))
        (⟨false, "log", 0, -1, 0⟩ : LoopState Nat) (some [8, 9])).1.offset =
      (([8, 9] : List Byte).length : Int) ∧
    newEntries (runPass (fun (s : Nat) (b : Byte) => (s, [b]))
        ((runPass (fun (s : Nat) (b : Byte) => (s, [b]))
          (⟨false, "log", 0, -1, 0⟩ : LoopState Nat) (some [8, 9])).1)
        (some ([8, 9] ++ [7]))).2.1 =
      (parseChunk (fun (s : Nat) (b : Byte) => (s, [b]))
        ((runPass (fun (s : Nat) (b : Byte) => (s, [b]))
          (⟨false, "log", 0, -1, 0⟩ : LoopState Nat) (some [8, 9])).1.parserState)
        [7]).2 :=
  ⟨(C3_start_offset_and_deferral (fun (s : Nat) (b : Byte) => (s, [b]))
      (⟨false, "log", 0, -1, 0⟩ : LoopState Nat) [8, 9] [7]).1 (Or.inl (by norm_num)),
    (C3_start_offset_and_deferral (fun (s : Nat) (b : Byte) => (s, [b]))
      (⟨false, "log", 2, 1, 0⟩ : LoopState Nat) [8, 9] [7]).2.1
        (by norm_num) (by norm_num),
    (C3_start_offset_and_deferral (fun (s : Nat) (b : Byte) => (s, [b]))
      (⟨false, "log", 0, -1, 0⟩ : LoopState Nat) [8, 9] [7]).2.2.1,
    (C3_start_offset_and_deferral (fun (s : Nat) (b : Byte) => (s, [b]))
      (⟨false, "log", 0, -1, 0⟩ : LoopState Nat) [8, 9] [7]).2.2.2.1,
    (C3_start_offset_and_deferral (fun (s : Nat) (b : Byte) => (s, [b]))
      (⟨false, "log", 0, -1, 0⟩ : LoopState Nat) [8, 9] [7]).2.2.2.2⟩

/-- C5: when opening the file fails, the pass sets the stop flag, emits
exactly one error event carrying the path, and the loop exits at once — no
further tick of the schedule is processed, whatever comes after. -/
theorem C5_open_failure_terminal {σ α : Type} (step : σ → Byte → σ × List α)
    (st : LoopState σ) (ts : List Tick) (h : st.stop = false) :
    runTicks step st (Tick.pass none :: ts) =
      ({ st with stop := true },
        [Event.errorOccurred ("Can\x27t open file: " ++ st.logFilePath)]) := by
  simp [runTicks, h, runPass]

/-- Witness for C5: a failing open followed by a would-be successful pass
that is never attempted. -/
theorem C5_open_failure_terminal_witness :
    runTicks (fun (s : Nat) (b : Byte) => (s, [b]))
        (⟨false, "dmg.log", 0, -1, 0⟩ : LoopState Nat)
        [Tick.pass none, Tick.pass (some [1, 2, 3])] =
      ((⟨true, "dmg.log", 0, -1, 0⟩ : LoopState Nat),
        [Event.errorOccurred ("Can\x27t open file: " ++ "dmg.log")]) :=
  C5_open_failure_terminal (fun (s : Nat) (b : Byte) => (s, [b]))
    (⟨false, "dmg.log", 0, -1, 0⟩ : LoopState Nat) [Tick.pass (some [1, 2, 3])] rfl

/-- C6: while paused the loop performs no passes and emits no events; after
resume, the next pass delivers exactly the entries parsed from the bytes
appended during the pause. -/
theorem C6_pause_defers_delivery {σ α : Type} (step : σ → Byte → σ × List α)
    (st : LoopState σ) (n : Nat) (c d : List Byte)
    (hstop : st.stop = false) (hoff : st.offset = (c.length : Int)) :
    (runTicks step st (List.replicate n Tick.pauseWait)).2 = ([] : List (Event α)) ∧
    newEntries (runTicks step st
        (List.replicate n Tick.pauseWait ++ [Tick.pass (some (c ++ d))])).2
      = (parseChunk step st.parserState d).2 := by
  constructor
  · have h := congrArg Prod.snd (runTicks_pauseWaits step st n [] hstop)
    simpa [runTicks] using h
  · rw [runTicks_pauseWaits step st n _ hstop]
    have hrc := readChunk_append_self st c d hoff
    simp [runTicks, hstop, runPass_some, hrc, newEntries_append,
      newEntries_map_newLog, newEntries_fileSizeChanged_if, newEntries_fileEnd]

/-- Witness for C6: three pause timeouts over a 2-byte file, then one byte
appended and a resumed pass delivering only that byte's entries. -/
theorem C6_pause_defers_delivery_witness :
    (runTicks (fun (s : Nat) (b : Byte) => (s, [b]))
        (⟨false, "log", 2, 2, 0⟩ : LoopState Nat)
        (List.replicate 3 Tick.pauseWait)).2 = ([] : List (Event Nat)) ∧
    newEntries (runTicks (fun (s : Nat) (b : Byte) => (s, [b]))
        (⟨false, "log", 2, 2, 0⟩ : LoopState Nat)
        (List.replicate 3 Tick.pauseWait ++ [Tick.pass (some ([9, 9] ++ [7]))])).2
      = (parseChunk (fun (s : Nat) (b : Byte) => (s, [b])) 0 [7]).2 :=
  C6_pause_defers_delivery (fun (s : Nat) (b : Byte) => (s, [b]))
    (⟨false, "log", 2, 2, 0⟩ : LoopState Nat) 3 [9, 9] [7] rfl (by norm_num)

/-- C4 counterexample: at a concrete state whose loop is running, calling
`setLogFilePath` with a different path leaves the thread not running — the
method stops the old loop but never starts a new one, refuting the claim's
"starts a new loop" part. -/
theorem C4_counterexample :
    ¬ ((setLogFilePath Unit
        (⟨"old.log", true, false, false, 0⟩ : ControlState) "new.log").1.running = true) := by
  decide

/-- C4 amended: `setLogFilePath` with the current path is a no-op (no stop,
no state change, no events); with a different path it stops any running loop
(blocking until it exits, which also clears the stop flag), updates the
path, and emits exactly one path-changed event — it does not itself start a
new loop. -/
theorem C4_setLogFilePath_amended (st : ControlState) (path : String) :
    (path = st.logFilePath → setLogFilePath Unit st path = (st, [])) ∧
    (path ≠ st.logFilePath →
      (setLogFilePath Unit st path).1 =
        { st with logFilePath := path, running := false, stopFlag := false } ∧
      (setLogFilePath Unit st path).2 = [Event.logFilePathChanged path] ∧
      (setLogFilePath Unit st path).1.running = false) := by
  constructor
  · intro h
    simp [setLogFilePath, h]
  · intro h
    refine ⟨?_, ?_, ?_⟩ <;> simp [setLogFilePath, stop, h]

/-- Witness for C4 (amended): same-path call is a no-op; a different path is
stored, stops the loop and emits one path-changed event. -/
theorem C4_setLogFilePath_amended_witness :
    setLogFilePath Unit (⟨"a.log", true, false, false, 3⟩ : ControlState) "a.log" =
      ((⟨"a.log", true, false, false, 3⟩ : ControlState), []) ∧
    (setLogFilePath Unit (⟨"a.log", true, false, false, 3⟩ : ControlState) "b.log").1 =
      (⟨"b.log", false, false, false, 3⟩ : ControlState) ∧
    (setLogFilePath Unit (⟨"a.log", true, false, false, 3⟩ : ControlState) "b.log").2 =
      [Event.logFilePathChanged "b.log"] :=
  ⟨(C4_setLogFilePath_amended (⟨"a.log", true, false, false, 3⟩ : ControlState) "a.log").1 rfl,
    ((C4_setLogFilePath_amended (⟨"a.log", true, false, false, 3⟩ : ControlState) "b.log").2
      (by decide)).1,
    ((C4_setLogFilePath_amended (⟨"a.log", true, false, false, 3⟩ : ControlState) "b.log").2
      (by decide)).2.1⟩

/-- C7 counterexample: with stop requested during the pause-wait (the single
observation reads stop = true), the iteration tail still contains the fixed
sleep — `msleep(1000)` is unconditional, refuting the claim's "the sleep is
skipped if stop was requested during the wait". -/
theorem C7_counterexample :
    TailAction.sleep ∈ iterTail [(true, true)] := by
  decide

/-- C7 amended: once the stop flag is observed, the pause-wait loop exits at
its next condition check (no further bounded timeouts) and the outer loop
processes no further pass, but the fixed-interval sleep is not skipped —
every iteration tail ends with the unconditional sleep, so exit takes up to
one pause timeout plus one sleep interval — and the stop flag is cleared by
`stop()` after the loop has exited so the reader can be restarted. -/
theorem C7_stop_exit_amended {σ α : Type} (step : σ → Byte → σ × List α)
    (p : Bool) (obsRest : List (Bool × Bool)) (obs : List (Bool × Bool))
    (st : LoopState σ) (ts : List Tick) (cst : ControlState) :
    pauseWaitActions ((p, true) :: obsRest) = [] ∧
    TailAction.sleep ∈ iterTail obs ∧
    (st.stop = true → runTicks step st ts = (st, ([] : List (Event α)))) ∧
    (stop cst).stopFlag = false := by
  refine ⟨?_, ?_, ?_, rfl⟩
  · simp [pauseWaitActions]
  · simp [iterTail]
  · intro h
    cases ts with
    | nil => simp [runTicks]
    | cons t ts => cases t <;> simp [runTicks, h]

/-- Witness for C7 (amended): a stopped loop processes no pass, and `stop()`
leaves the flag cleared. -/
theorem C7_stop_exit_amended_witness :
    runTicks (fun (s : Nat) (b : Byte) => (s, [b]))
        (⟨true, "log", 0, -1, 0⟩ : LoopState Nat) [Tick.pass (some [1])] =
      ((⟨true, "log", 0, -1, 0⟩ : LoopState Nat), ([] : List (Event Nat))) ∧
    (stop (⟨"log", true, true, false, 0⟩ : ControlState)).stopFlag = false :=
  ⟨(C7_stop_exit_amended (fun (s : Nat) (b : Byte) => (s, [b])) true [] []
      (⟨true, "log", 0, -1, 0⟩ : LoopState Nat) [Tick.pass (some [1])]
      (⟨"log", true, true, false, 0⟩ : ControlState)).2.2.1 rfl,
    (C7_stop_exit_amended (fun (s : Nat) (b : Byte) => (s, [b])) true [] []
      (⟨true, "log", 0, -1, 0⟩ : LoopState Nat) [Tick.pass (some [1])]
      (⟨"log", true, true, false, 0⟩ : ControlState)).2.2.2⟩

/-- C8: within a successful pass the emitted events are exactly an optional
size-changed (present iff the size differs from the stored one), then one
new-entry per parsed entry, then a single batch-end; and passes are strictly
sequential — the events of a schedule beginning with a pass are that pass's
events followed by those of the rest, with no interleaving. -/
theorem C8_event_order {σ α : Type} (step : σ → Byte → σ × List α)
    (st : LoopState σ) (c : List Byte) (ts : List Tick) :
    (runPass step st (some c)).2.1 =
      (if st.fileSize = (c.length : Int) then []
        else [Event.fileSizeChanged (c.length : Int)]) ++
        ((parseChunk step st.parserState (readChunk st c)).2.map Event.newLog) ++
        [Event.fileEnd (toInt32 (c.length : Int))] ∧
    (st.stop = false →
      (runTicks step st (Tick.pass (some c) :: ts)).2 =
        (runPass step st (some c)).2.1 ++
          (runTicks step (runPass step st (some c)).1 ts).2) := by
  constructor
  · rw [runPass_some]
  · intro h
    simp [runTicks, h, runPass_some]

/-- Witness for C8: the event order of one concrete pass and its sequential
composition with an empty remainder. -/
theorem C8_event_order_witness :
    (runPass (fun (s : Nat) (b : Byte) => (s, [b]))
        (⟨false, "log", 0, -1, 0⟩ : LoopState Nat) (some [4, 5])).2.1 =
      (if (0 : Int) = (([4, 5] : List Byte).length : Int) then []
        else [Event.fileSizeChanged (([4, 5] : List Byte).length : Int)]) ++
        ((parseChunk (fun (s : Nat) (b : Byte) => (s, [b])) 0
            (readChunk (⟨false, "log", 0, -1, 0⟩ : LoopState Nat) [4, 5])).2.map
          Event.newLog) ++
        [Event.fileEnd (toInt32 (([4, 5] : List Byte).length : Int))] ∧
    (runTicks (fun (s : Nat) (b : Byte) => (s, [b]))
        (⟨false, "log", 0, -1, 0⟩ : LoopState Nat) [Tick.pass (some [4, 5])]).2 =
      (runPass (fun (s : Nat) (b : Byte) => (s, [b]))
          (⟨false, "log", 0, -1, 0⟩ : LoopState Nat) (some [4, 5])).2.1 ++
        (runTicks (fun (s : Nat) (b : Byte) => (s, [b]))
          (runPass (fun (s : Nat) (b : Byte) => (s, [b]))
            (⟨false, "log", 0, -1, 0⟩ : LoopState Nat) (some [4, 5])).1 []).2 :=
  ⟨(C8_event_order (fun (s : Nat) (b : Byte) => (s, [b]))
      (⟨false, "log", 0, -1, 0⟩ : LoopState Nat) [4, 5] []).1,
    (C8_event_order (fun (s : Nat) (b : Byte) => (s, [b]))
      (⟨false, "log", 0, -1, 0⟩ : LoopState Nat) [4, 5] []).2 rfl⟩

/-- C9: the batch-end payload is the 64-bit recorded size narrowed to a
signed 32-bit int: the last event of every successful pass is `fileEnd` of
`toInt32` of the size; the narrowing is the identity below 2^31, and from
2^31 upwards it is reduction modulo 2^32 and never the actual offset. -/
theorem C9_fileEnd_narrowing {σ α : Type} (step : σ → Byte → σ × List α)
    (st : LoopState σ) (c : List Byte) (n : Int) :
    ((runPass step st (some c)).2.1).getLast? =
      some (Event.fileEnd (toInt32 (c.length : Int))) ∧
    (0 ≤ n → n < 2 ^ 31 → toInt32 n = n) ∧
    (2 ^ 31 ≤ n → toInt32 n ≠ n ∧ toInt32 n % 2 ^ 32 = n % 2 ^ 32) := by
  refine ⟨?_, ?_, ?_⟩
  · rw [runPass_some]
    simp
  · intro h0 h1
    rw [show ((2 : Int)) ^ 31 = 2147483648 from by norm_num] at h1
    have hmod : n % 4294967296 = n := Int.emod_eq_of_lt h0 (by omega)
    simp [toInt32, hmod, h1]
  · intro h
    have hpow32 : (2 : Int) ^ 32 = 4294967296 := by norm_num
    have hpow31 : (2 : Int) ^ 31 = 2147483648 := by norm_num
    rw [hpow31] at h
    constructor
    · simp only [toInt32, hpow32, hpow31]
      split <;> omega
    · simp only [toInt32, hpow32, hpow31]
      split <;> omega

/-- Witness for C9: the narrowing at 100 (identity) and at 2^31 (wrapped),
and the final `fileEnd` event of a concrete pass. -/
theorem C9_fileEnd_narrowing_witness :
    (runPass (fun (s : Nat) (b : Byte) => (s, [b]))
        (⟨false, "log", 0, -1, 0⟩ : LoopState Nat) (some [1, 2, 3])).2.1.getLast? =
      some (Event.fileEnd (toInt32 (([1, 2, 3] : List Byte).length : Int))) ∧
    toInt32 100 = 100 ∧
    toInt32 (2 ^ 31) ≠ 2 ^ 31 ∧
    toInt32 (2 ^ 31) % 2 ^ 32 = (2 : Int) ^ 31 % 2 ^ 32 :=
  ⟨(C9_fileEnd_narrowing (fun (s : Nat) (b : Byte) => (s, [b]))
      (⟨false, "log", 0, -1, 0⟩ : LoopState Nat) [1, 2, 3] 100).1,
    (C9_fileEnd_narrowing (fun (s : Nat) (b : Byte) => (s, [b]))
      (⟨false, "log", 0, -1, 0⟩ : LoopState Nat) [1, 2, 3] 100).2.1
        (by norm_num) (by norm_num),
    ((C9_fileEnd_narrowing (fun (s : Nat) (b : Byte) => (s, [b]))
      (⟨false, "log", 0, -1, 0⟩ : LoopState Nat) [1, 2, 3] (2 ^ 31)).2.2 (le_refl _)).1,
    ((C9_fileEnd_narrowing (fun (s : Nat) (b : Byte) => (s, [b]))
      (⟨false, "log", 0, -1, 0⟩ : LoopState Nat) [1, 2, 3] (2 ^ 31)).2.2 (le_refl _)).2⟩

/-- C10: a freshly constructed reader is paused — `isPaused` on the
constructed state is true, overriding the member's in-class initialiser of
false. -/
theorem C10_constructed_paused :
    isPaused mkDamageLogFileReader = true ∧ pausedMemberInit = false := by
  constructor <;> rfl

end NeocronLog
